import Mathlib

/-!
Verification development for the OpenMW audio engine core
(`apps/openmw/mwsound/sound.hpp` and the sound manager implementation,
`soundmanagerimp.cpp`).  The C++ code is shallowly embedded: `float`
quantities are modelled as exact rationals (`ℚ`), machine state is passed
explicitly, and backend calls are recorded as explicit command logs.
-/

set_option autoImplicit false

namespace MWSound

/-- Squared-length 3-vector arithmetic for `osg::Vec3f` as used by the
distance-cull check (`(mListenerPos - objpos).length2()`). -/
structure Vec3 where
  x : ℚ
  y : ℚ
  z : ℚ
  deriving DecidableEq, Repr

namespace Vec3

def sub (a b : Vec3) : Vec3 := ⟨a.x - b.x, a.y - b.y, a.z - b.z⟩

def length2 (v : Vec3) : ℚ := v.x * v.x + v.y * v.y + v.z * v.z

def zero : Vec3 := ⟨0, 0, 0⟩

end Vec3

/-- Modelled from the spec (§3 "SoundParameters"): the numeric values of the
`PlayMode`/`Type` bit flags live in `sound_output.hpp`, which is not among the
provided sources, so the flag word is modelled as a record of booleans with
the field meanings used by `sound.hpp`'s accessors (`getIsLooping`,
`getUseEnv`, `getDistanceCull`, `getIs3D`) and by `playSound3D`'s checks for
`PlayMode::RemoveAtDistance` and `PlayMode::NoPlayerLocal`. -/
structure PlayFlags where
  loop : Bool := false
  noEnv : Bool := false
  removeAtDistance : Bool := false
  noPlayerLocal : Bool := false
  is3D : Bool := false
  deriving DecidableEq, Repr

/-- Embeds `MWSound::SoundParams` (sound.hpp:14-25), with `float` fields as `ℚ` and
the flag word as `PlayFlags`. Default field values mirror the C++ member
initializers. -/
structure SoundParams where
  pos : Vec3 := Vec3.zero
  volumeFactor : ℚ := 1
  sfxVolume : ℚ := 1
  baseVolume : ℚ := 1
  pitch : ℚ := 1
  minDistance : ℚ := 1
  maxDistance : ℚ := 1000
  flags : PlayFlags := {}
  fadeOutTime : ℚ := 0
  deriving DecidableEq, Repr

/-- Embeds `MWSound::SoundBase::State` (sound.hpp:34-39). -/
inductive SoundState where
  | Loading
  | Playing
  | LoadCancelled
  deriving DecidableEq, Repr, Fintype

/-- Embeds `MWSound::SoundBase` (sound.hpp:27-91): the parameter block together with
the three-state lifecycle field `mState` (initially `Loading`). The backend
handle is irrelevant to the verified properties and omitted. -/
structure SoundBase where
  params : SoundParams
  state : SoundState := .Loading
  deriving DecidableEq, Repr

namespace SoundBase

/-- Embeds `SoundBase::updateFade(float duration)` (sound.hpp:56-64):
```
if(mParams.mFadeOutTime > 0.0f) {
    float soundDuration = std::min(duration, mParams.mFadeOutTime);
    mParams.mVolumeFactor *= (mParams.mFadeOutTime - soundDuration) / mParams.mFadeOutTime;
    mParams.mFadeOutTime -= soundDuration;
}
```
Note the function reads and writes only `mParams`; `mState` is not
consulted. -/
def updateFade (sb : SoundBase) (duration : ℚ) : SoundBase :=
  if sb.params.fadeOutTime > 0 then
    let soundDuration := min duration sb.params.fadeOutTime
    { sb with params :=
      { sb.params with
        volumeFactor := sb.params.volumeFactor *
          ((sb.params.fadeOutTime - soundDuration) / sb.params.fadeOutTime)
        fadeOutTime := sb.params.fadeOutTime - soundDuration } }
  else sb

/-- Embeds `SoundBase::setPlaying` (sound.hpp:65). -/
def setPlaying (sb : SoundBase) : SoundBase := { sb with state := .Playing }

/-- Embeds `SoundBase::cancelLoading` (sound.hpp:66). -/
def cancelLoading (sb : SoundBase) : SoundBase := { sb with state := .LoadCancelled }

/-- Embeds `SoundBase::getRealVolume` (sound.hpp:69):
`mParams.mVolumeFactor * mParams.mSfxVolume * mParams.mBaseVolume`. -/
def getRealVolume (sb : SoundBase) : ℚ :=
  sb.params.volumeFactor * sb.params.sfxVolume * sb.params.baseVolume

/-- Embeds `SoundBase::isPlaying` (sound.hpp:80). -/
def isPlaying (sb : SoundBase) : Bool := sb.state = .Playing

/-- Embeds `SoundBase::isLoadCancelled` (sound.hpp:81). -/
def isLoadCancelled (sb : SoundBase) : Bool := sb.state = .LoadCancelled

/-- Caller-side setters available on a handle returned by the request path
(sound.hpp:49-55). -/
def setVolumeFactor (sb : SoundBase) (v : ℚ) : SoundBase :=
  { sb with params := { sb.params with volumeFactor := v } }

def setBaseVolume (sb : SoundBase) (v : ℚ) : SoundBase :=
  { sb with params := { sb.params with baseVolume := v } }

def setSfxVolume (sb : SoundBase) (v : ℚ) : SoundBase :=
  { sb with params := { sb.params with sfxVolume := v } }

def setFadeout (sb : SoundBase) (d : ℚ) : SoundBase :=
  { sb with params := { sb.params with fadeOutTime := d } }

def setPosition (sb : SoundBase) (p : Vec3) : SoundBase :=
  { sb with params := { sb.params with pos := p } }

def setMinDistance (sb : SoundBase) (v : ℚ) : SoundBase :=
  { sb with params := { sb.params with minDistance := v } }

def setMaxDistance (sb : SoundBase) (v : ℚ) : SoundBase :=
  { sb with params := { sb.params with maxDistance := v } }

end SoundBase

/-- Embeds `SoundManager::stopSound(Sound*)` (soundmanagerimp.cpp, part_003:731-740):
```
if (sound->isPlaying()) mOutput->finishSound(sound);
else sound->cancelLoading();
```
The returned boolean records whether `mOutput->finishSound` was issued. -/
def stopSound (sb : SoundBase) : SoundBase × Bool :=
  if sb.isPlaying then (sb, true) else (sb.cancelLoading, false)

/-! ### Buffer cache and eviction (`SoundManager::loadSoundSync`, part_003:240-298)

The cache bookkeeping of `loadSoundSync` after a successful backend
`loadSound`: `mBufferCacheSize` is a `size_t` running byte total,
`mUnusedBuffers` is the pool of zero-use resident buffers (most recently
unused at the front).  Here the pool is represented by the byte sizes of its
buffers; `mOutput->unloadSound` is modelled as returning the same size the
buffer contributed when loaded.  `size_t` subtraction is modelled by `Nat`
subtraction, which agrees with the C++ arithmetic as long as the evicted
sizes never exceed the running total (the invariant
`unused.sum ≤ cacheSize`, which the manager maintains because every pooled
buffer's size is part of the total). -/

/-- The `do { ... } while(mBufferCacheSize > mBufferCacheMin)` eviction loop
(part_003:279-292).  Returns the new byte total, the surviving pool, and
whether the "No unused sound buffers to free" warning was logged (the
`mUnusedBuffers.empty()` break). Eviction takes `mUnusedBuffers.back()`
(the least-recently-unused buffer), unloads it, and pops it. -/
def evictLoop (cacheSize : Nat) (unused : List Nat) (cacheMin : Nat) :
    Nat × List Nat × Bool :=
  match unused with
  | [] => (cacheSize, [], true)
  | u :: us =>
    let sz := (u :: us).getLastD 0
    let cs := cacheSize - sz
    let rest := (u :: us).dropLast
    if cs > cacheMin then evictLoop cs rest cacheMin else (cs, rest, false)
termination_by unused.length
decreasing_by
  simp only [List.length_dropLast, List.length_cons]
  omega

/-- The cache state touched by `loadSoundSync`'s load branch. `warned`
records whether the over-budget warning was logged during the last load. -/
structure CacheState where
  cacheSize : Nat
  unused : List Nat
  warned : Bool
  deriving DecidableEq, Repr

/-- The `if(!sfx->mHandle)` branch of `loadSoundSync` (part_003:270-295)
after a successful backend load of `sz` bytes: add the size to the total,
run the eviction loop when over `mBufferCacheMax`, then push the new buffer
onto the front of the unused pool. -/
def loadSoundSyncCache (st : CacheState) (sz cacheMin cacheMax : Nat) : CacheState :=
  let cs := st.cacheSize + sz
  if cs > cacheMax then
    let r := evictLoop cs st.unused cacheMin
    { cacheSize := r.1, unused := sz :: r.2.1, warned := r.2.2 }
  else
    { cacheSize := cs, unused := sz :: st.unused, warned := false }

/-- The constructor clamps (part_003:129-132):
```
mBufferCacheMin = std::max(getInt("buffer cache min"), 1);
mBufferCacheMax = std::max(getInt("buffer cache max"), 1);
mBufferCacheMax *= 1024*1024;
mBufferCacheMin = std::min(mBufferCacheMin*1024*1024, mBufferCacheMax);
```
(int arithmetic modelled as unbounded `Int`). -/
def bufferCacheLimits (minSetting maxSetting : Int) : Int × Int :=
  let bMin0 := max minSetting 1
  let bMax := max maxSetting 1 * (1024 * 1024)
  (min (bMin0 * (1024 * 1024)) bMax, bMax)

lemma bufferCacheLimits_le (minSetting maxSetting : Int) :
    (bufferCacheLimits minSetting maxSetting).1 ≤ (bufferCacheLimits minSetting maxSetting).2 :=
  min_le_right _ _

/-- The pool that survives `evictLoop` is an initial segment of the original
pool (buffers are removed one at a time from the back), the loop stops as
soon as the total is not above `cacheMin`, and the warning fires exactly
when the pool was emptied with the total still above `cacheMin`. -/
lemma evictLoop_spec (cacheSize : Nat) (unused : List Nat) (cacheMin : Nat) :
    ∃ k, k ≤ unused.length ∧
      (evictLoop cacheSize unused cacheMin).2.1 = unused.take k ∧
      ((evictLoop cacheSize unused cacheMin).2.2 = true → unused.take k = []) ∧
      ((evictLoop cacheSize unused cacheMin).2.2 = false →
        (evictLoop cacheSize unused cacheMin).1 ≤ cacheMin) := by
  induction cacheSize, unused, cacheMin using evictLoop.induct with
  | case1 cacheSize cacheMin => exact ⟨0, by simp [evictLoop]⟩
  | case2 cacheSize cacheMin u us sz cs rest h ih =>
    have hev : evictLoop cacheSize (u :: us) cacheMin = evictLoop cs rest cacheMin := by
      rw [evictLoop]
      simp only [sz, cs, rest] at h ⊢
      rw [if_pos h]
    have hrestlen : rest.length = us.length := by
      simp [rest]
    have hresttake : ∀ k, k ≤ us.length → rest.take k = (u :: us).take k := by
      intro k hk
      simp only [rest, List.dropLast_eq_take, List.length_cons, Nat.add_sub_cancel]
      rw [List.take_take]
      rw [min_eq_left hk]
    rcases ih with ⟨k, hk, hrest, hw, hnw⟩
    rw [hrestlen] at hk
    refine ⟨k, le_trans hk (by simp), ?_, ?_, ?_⟩
    · rw [hev, hrest, hresttake k hk]
    · intro hwt
      rw [hev] at hwt
      have := hw hwt
      rwa [hresttake k hk] at this
    · intro hwf
      rw [hev] at hwf ⊢
      exact hnw hwf
  | case3 cacheSize cacheMin u us sz cs h =>
    have hev : evictLoop cacheSize (u :: us) cacheMin = (cs, (u :: us).dropLast, false) := by
      rw [evictLoop]
      simp only [sz, cs] at h ⊢
      rw [if_neg h]
    refine ⟨us.length, by simp, ?_, ?_, ?_⟩
    · rw [hev]
      simp [List.dropLast_eq_take]
    · intro hwt
      rw [hev] at hwt
      simp at hwt
    · intro _
      rw [hev]
      exact Nat.le_of_not_lt h

/-- C1: after the eviction loop that follows a buffer load settles, the
tracked cache byte total is at most the configured maximum unless the
unused-buffer pool became empty during eviction (the logged warning);
eviction removes buffers one at a time from the least-recently-unused (back)
end — the surviving pool is an initial segment of the old pool with the new
buffer pushed on the front — and eviction stops as soon as the total is not
above the configured minimum.  The hypothesis `cacheMin ≤ cacheMax` is
established by the constructor clamp (`bufferCacheLimits_le`); the
hypothesis `hsum` is the tracked-total invariant under which `Nat`
subtraction coincides with the C++ `size_t` arithmetic. -/
theorem C1_cache_bounded_after_load
    (st : CacheState) (sz cacheMin cacheMax : Nat)
    (hminmax : cacheMin ≤ cacheMax)
    (_hsum : st.unused.sum ≤ st.cacheSize) :
    ((loadSoundSyncCache st sz cacheMin cacheMax).warned = false →
        (loadSoundSyncCache st sz cacheMin cacheMax).cacheSize ≤ cacheMax)
    ∧ ∃ k, k ≤ st.unused.length ∧
        (loadSoundSyncCache st sz cacheMin cacheMax).unused = sz :: st.unused.take k ∧
        ((loadSoundSyncCache st sz cacheMin cacheMax).warned = true →
          st.unused.take k = []) ∧
        ((loadSoundSyncCache st sz cacheMin cacheMax).warned = false →
          st.cacheSize + sz > cacheMax →
          (loadSoundSyncCache st sz cacheMin cacheMax).cacheSize ≤ cacheMin) := by
  unfold loadSoundSyncCache
  by_cases hover : st.cacheSize + sz > cacheMax
  · rw [if_pos hover]
    rcases evictLoop_spec (st.cacheSize + sz) st.unused cacheMin with ⟨k, hk, hrest, hw, hnw⟩
    constructor
    · intro hwf
      simp only at hwf
      exact le_trans (hnw hwf) hminmax
    · refine ⟨k, hk, ?_, ?_, ?_⟩
      · simp only [hrest]
      · intro hwt
        simp only at hwt
        exact hw hwt
      · intro hwf _
        simp only at hwf ⊢
        exact hnw hwf
  · rw [if_neg hover]
    refine ⟨fun _ => Nat.le_of_not_lt hover, st.unused.length, le_rfl, ?_, ?_, ?_⟩
    · simp
    · intro hwt
      simp at hwt
    · intro _ hcontra
      exact absurd hcontra hover

/-- Witness for `C1_cache_bounded_after_load`, at the spec's own scenario
(§8): cache max 10, min 5, three loads of 4 bytes with nothing evictable.
The state below is the cache after the first two loads with both buffers
in use (pool empty); the third load pushes the total to 12, the eviction
loop finds the pool empty and warns, and the total stays over budget. -/
theorem C1_cache_bounded_after_load_witness :
    (5 ≤ 10 ∧ ([] : List Nat).sum ≤ 8) ∧
    (((loadSoundSyncCache ⟨8, [], false⟩ 4 5 10).warned = false →
        (loadSoundSyncCache ⟨8, [], false⟩ 4 5 10).cacheSize ≤ 10)
      ∧ ∃ k, k ≤ ([] : List Nat).length ∧
          (loadSoundSyncCache ⟨8, [], false⟩ 4 5 10).unused = 4 :: ([] : List Nat).take k ∧
          ((loadSoundSyncCache ⟨8, [], false⟩ 4 5 10).warned = true →
            ([] : List Nat).take k = []) ∧
          ((loadSoundSyncCache ⟨8, [], false⟩ 4 5 10).warned = false →
            8 + 4 > 10 →
            (loadSoundSyncCache ⟨8, [], false⟩ 4 5 10).cacheSize ≤ 5)) :=
  ⟨⟨by decide, by decide⟩,
    C1_cache_bounded_after_load ⟨8, [], false⟩ 4 5 10 (by decide) (by decide)⟩

/-! ### C4: the per-frame fade update -/

/-- C4 counterexample: `SoundBase::updateFade` (sound.hpp:56-64) never reads
`mState`.  A `Loading` instance with an active fade-out (remaining time 1)
is mutated by `updateFade(1/2)` — its volume factor halves — contradicting
the claim that the parameters are mutated only when the instance is in the
`Playing` state. -/
theorem C4_updateFade_loading_mutates :
    (SoundBase.mk { fadeOutTime := 1 } .Loading).state ≠ .Playing ∧
    ¬ ((SoundBase.mk { fadeOutTime := 1 } .Loading).updateFade (1/2) =
        SoundBase.mk { fadeOutTime := 1 } .Loading) := by
  refine ⟨by decide, fun h => ?_⟩
  have := congrArg (fun sb : SoundBase => sb.params.fadeOutTime) h
  simp [SoundBase.updateFade] at this
  norm_num at this

/-- C4 (amended): `updateFade(dt)` mutates the parameters exactly when a
fade-out is active (remaining fade time > 0), irrespective of the lifecycle
state; when it does, the volume factor is multiplied by
`(remaining - min(dt, remaining)) / remaining` and the remaining fade time
decreases by `min(dt, remaining)`; once the remaining fade time reaches
zero (i.e. `dt` covers the remaining fade), the effective volume
`getRealVolume` is 0. -/
theorem C4_updateFade_spec (sb : SoundBase) (dt : ℚ) (_hdt : 0 ≤ dt) :
    (sb.params.fadeOutTime ≤ 0 → sb.updateFade dt = sb) ∧
    (0 < sb.params.fadeOutTime →
      sb.updateFade dt =
        { sb with params :=
          { sb.params with
            volumeFactor := sb.params.volumeFactor *
              ((sb.params.fadeOutTime - min dt sb.params.fadeOutTime) /
                sb.params.fadeOutTime)
            fadeOutTime := sb.params.fadeOutTime - min dt sb.params.fadeOutTime } }) ∧
    (0 < sb.params.fadeOutTime → sb.params.fadeOutTime ≤ dt →
      (sb.updateFade dt).getRealVolume = 0 ∧
      (sb.updateFade dt).params.fadeOutTime = 0) := by
  refine ⟨?_, ?_, ?_⟩
  · intro hle
    simp [SoundBase.updateFade, not_lt.mpr hle]
  · intro hpos
    simp [SoundBase.updateFade, hpos]
  · intro hpos hcov
    have hmin : min dt sb.params.fadeOutTime = sb.params.fadeOutTime :=
      min_eq_right hcov
    constructor
    · simp [SoundBase.updateFade, hpos, SoundBase.getRealVolume, hmin]
    · simp [SoundBase.updateFade, hpos, hmin]

/-- Witness for `C4_updateFade_spec`: a `Playing` instance with remaining
fade 2 updated by `dt = 3` ends with effective volume 0. -/
theorem C4_updateFade_spec_witness :
    (SoundBase.updateFade (SoundBase.mk { fadeOutTime := 2 } .Playing) 3).getRealVolume = 0 :=
  ((C4_updateFade_spec (SoundBase.mk { fadeOutTime := 2 } .Playing) 3
    (by norm_num)).2.2 (by norm_num) (by norm_num)).1

/-! ### C5: lifecycle transitions reachable through the manager's operations

`setPlaying` and `cancelLoading` (sound.hpp:65-66) are raw field writes; the
manager invokes them only through the guarded paths below:
  * `stopSound(Sound*)` (part_003:731-740) — `cancelLoading` only when the
    instance is not `Playing`;
  * the ledger cancellations (`stopSound3D`, part_003:755-794,
    `stopSound(cell)`, part_003:790-794) — `cancelLoading` on entries of
    `mLoadingSounds`, which hold only uncommitted instances;
  * the `playLoadedSounds` drain (part_003:1551-1600) — `setPlaying` after
    the `isLoadCancelled` skip and a successful backend play, the instance
    moving from the ledger to the active table (or being dropped on
    failure).
The location of an instance (pending ledger / active table / dropped) is
tracked alongside its state; `ledgerInv` is the invariant that a ledger
entry is never `Playing`. -/

/-- State-level view of `SoundManager::stopSound(Sound*)`. -/
def stopSoundState (s : SoundState) : SoundState × Bool :=
  if s = .Playing then (s, true) else (.LoadCancelled, false)

lemma stopSound_state_eq (sb : SoundBase) :
    (stopSound sb).1.state = (stopSoundState sb.state).1 ∧
    (stopSound sb).2 = (stopSoundState sb.state).2 := by
  cases hsb : sb.state <;>
    simp [stopSound, stopSoundState, SoundBase.isPlaying, SoundBase.cancelLoading, hsb]

/-- Where an instance currently lives. -/
inductive InstLoc where
  | inLedger
  | active
  | dropped
  deriving DecidableEq, Repr, Fintype

/-- Lifecycle view: the state enum together with the instance's location. -/
structure InstView where
  st : SoundState
  loc : InstLoc
  deriving DecidableEq, Repr, Fintype

/-- The manager operations that can touch an instance's lifecycle state. -/
inductive LifeOp where
  | stop
  | cancelPending
  | drain (played : Bool)
  deriving DecidableEq, Repr, Fintype

/-- One manager operation applied to an instance, with the guards of the
corresponding source paths (see the section comment). -/
def lifeStep (x : InstView) : LifeOp → InstView
  | .stop => { x with st := (stopSoundState x.st).1 }
  | .cancelPending => if x.loc = .inLedger then { x with st := .LoadCancelled } else x
  | .drain played =>
      if x.loc = .inLedger then
        if x.st = .LoadCancelled then { x with loc := .dropped }
        else if played then { st := .Playing, loc := .active }
        else { x with loc := .dropped }
      else x

/-- A pending-ledger entry is never `Playing`. -/
def ledgerInv (x : InstView) : Prop := x.loc = .inLedger → x.st ≠ .Playing

instance (x : InstView) : Decidable (ledgerInv x) :=
  inferInstanceAs (Decidable (x.loc = .inLedger → x.st ≠ .Playing))

/-- C5: starting from the initial view (`Loading`, in the pending ledger),
under the manager's operations the only state changes ever observed are
`Loading → Playing` and `Loading → LoadCancelled`; `LoadCancelled` is
terminal, and a `Playing` instance never becomes `LoadCancelled`. -/
theorem C5_lifecycle_transitions :
    ledgerInv ⟨.Loading, .inLedger⟩
    ∧ (∀ (x : InstView) (op : LifeOp), ledgerInv x → ledgerInv (lifeStep x op))
    ∧ (∀ (x : InstView) (op : LifeOp), ledgerInv x →
        (lifeStep x op).st = x.st
        ∨ (x.st = .Loading ∧ (lifeStep x op).st = .Playing)
        ∨ (x.st = .Loading ∧ (lifeStep x op).st = .LoadCancelled))
    ∧ (∀ (x : InstView) (op : LifeOp),
        x.st = .LoadCancelled → (lifeStep x op).st = .LoadCancelled)
    ∧ (∀ (x : InstView) (op : LifeOp), ledgerInv x →
        x.st = .Playing → (lifeStep x op).st ≠ .LoadCancelled) := by
  refine ⟨by decide, by decide, by decide, by decide, by decide⟩

/-- Witness for `C5_lifecycle_transitions`: the stop operation on the fresh
`Loading` ledger entry realises one of the permitted transitions. -/
theorem C5_lifecycle_transitions_witness :
    (lifeStep ⟨.Loading, .inLedger⟩ .stop).st = (InstView.mk .Loading .inLedger).st
    ∨ ((InstView.mk .Loading .inLedger).st = .Loading ∧
        (lifeStep ⟨.Loading, .inLedger⟩ .stop).st = .Playing)
    ∨ ((InstView.mk .Loading .inLedger).st = .Loading ∧
        (lifeStep ⟨.Loading, .inLedger⟩ .stop).st = .LoadCancelled) :=
  C5_lifecycle_transitions.2.2.1 ⟨.Loading, .inLedger⟩ .stop (by decide)

/-! ### Active-sound table and the `playLoadedSounds` drain -/

/-- Embeds `MWSound::Sound_Buffer` as used by the drain: per-buffer volume,
attenuation distances and the backend handle (`sound_buffer.hpp`, consumed
by part_003:1563-1599).  The handle doubles as the buffer's identity. -/
structure SoundBuffer where
  volume : ℚ
  minDist : ℚ
  maxDist : ℚ
  handle : Nat
  deriving DecidableEq, Repr

/-- One element of the active-sound table: the C++ `SoundMap` maps an
entity to a list of `(SoundPtr, Sound_Buffer*)` pairs; here the table is
flattened to a list of entries keyed by the owning entity (`ConstPtr`
modelled as `Nat`).  `finished` records that `mOutput->finishSound` has
been issued for the instance (the backend retires it; the entry itself is
erased later by the `updateSounds` liveness sweep, part_003:1051-1061). -/
structure ActiveEntry where
  ptr : Nat
  sound : SoundBase
  buf : Nat
  finished : Bool
  deriving DecidableEq, Repr

/-- Embeds `SoundManager::stopSound(Sound_Buffer *sfx, const ConstPtr &ptr)`
(part_003:742-753): `mOutput->finishSound` on every active pair of `ptr`
whose buffer is `sfx`. -/
def stopSoundBuffer (tbl : List ActiveEntry) (b p : Nat) : List ActiveEntry :=
  tbl.map fun e => if e.ptr = p ∧ e.buf = b then { e with finished := true } else e

/-- An entry of `mLoadingSounds` (the pending-sound ledger), with the
fields the drain consumes; the work-item pointer is represented only by
the sound id it captures, the deadline is an abstract clock value. -/
structure LoadingSound where
  ptr : Nat
  soundId : String
  offset : ℚ
  sound : SoundBase
  deadline : Nat
  deriving DecidableEq, Repr

/-- A backend `playSound`/`playSound3D` invocation recorded by the drain. -/
structure PlayCall where
  buf : Nat
  is3D : Bool
  offset : ℚ
  deriving DecidableEq, Repr

/-- The manager state `playLoadedSounds` reads and writes: the drained
`mLoadedSoundBuffers` map, the active table, the per-buffer use counts, the
unused pool (as buffer handles here), and the log of backend play calls. -/
structure SoundDrainState where
  loadedBuffers : List (String × Option SoundBuffer)
  active : List ActiveEntry
  uses : Nat → Nat
  unusedIds : List Nat
  playCalls : List PlayCall

/-- One iteration of the `playLoadedSounds` commit loop
(part_003:1551-1600) for ledger entry `e`, with the backend's accept/reject
verdict passed in as `played`:
```
loaded = locked->find(loading.mSoundId); if (loaded == end) continue;
sound = std::move(loading.mSound);
if (sound->isLoadCancelled()) continue;
sfx = loaded->second; if (sfx == nullptr) continue;
stopSound(sfx, loading.mPtr);
sound->setSfxVolume(sfx->mVolume);
if (is3D) { setMinDistance; setMaxDistance; played = playSound3D(...); }
else played = playSound(...);
if (!played) continue;
sound->setPlaying();
if (sfx->mUses++ == 0) remove sfx from mUnusedBuffers;
mActiveSounds[ptr].emplace_back(sound, sfx);
``` -/
def playLoadedSoundsStep (st : SoundDrainState) (e : LoadingSound) (played : Bool) :
    SoundDrainState :=
  match st.loadedBuffers.lookup e.soundId with
  | none => st
  | some sfxOpt =>
    if e.sound.isLoadCancelled then st
    else
      match sfxOpt with
      | none => st
      | some sfx =>
        let tbl := stopSoundBuffer st.active sfx.handle e.ptr
        let snd1 := e.sound.setSfxVolume sfx.volume
        let snd2 :=
          if snd1.params.flags.is3D then
            (snd1.setMinDistance sfx.minDist).setMaxDistance sfx.maxDist
          else snd1
        let calls := st.playCalls ++ [⟨sfx.handle, snd1.params.flags.is3D, e.offset⟩]
        if played then
          { st with
            active := tbl ++ [⟨e.ptr, snd2.setPlaying, sfx.handle, false⟩]
            uses := fun h => if h = sfx.handle then st.uses sfx.handle + 1 else st.uses h
            unusedIds :=
              if st.uses sfx.handle = 0 then st.unusedIds.erase sfx.handle else st.unusedIds
            playCalls := calls }
        else { st with active := tbl, playCalls := calls }

/-- C3: when the drain commits a new instance of buffer `sfx` for entity
`e.ptr`, every prior table entry for that (entity, buffer) pair has been
stopped (backend-finished) first, and exactly one unstopped ("active")
instance of the pair remains in the table — the newly committed one.
(The stopped entries linger in the table until the same-frame
`updateSounds` liveness sweep erases them once the backend reports them no
longer playing.) -/
theorem C3_single_active_per_entity_buffer
    (st : SoundDrainState) (e : LoadingSound) (sfx : SoundBuffer)
    (hlook : st.loadedBuffers.lookup e.soundId = some (some sfx))
    (hnc : e.sound.isLoadCancelled = false) :
    (∀ a ∈ stopSoundBuffer st.active sfx.handle e.ptr,
        a.ptr = e.ptr → a.buf = sfx.handle → a.finished = true)
    ∧ (playLoadedSoundsStep st e true).active.countP
        (fun a => a.ptr == e.ptr && a.buf == sfx.handle && !a.finished) = 1 := by
  have hstopped : ∀ a ∈ stopSoundBuffer st.active sfx.handle e.ptr,
      a.ptr = e.ptr → a.buf = sfx.handle → a.finished = true := by
    intro a ha hp hb
    rcases List.mem_map.mp ha with ⟨a0, _ha0, rfl⟩
    by_cases hcond : a0.ptr = e.ptr ∧ a0.buf = sfx.handle
    · simp [hcond]
    · rw [if_neg hcond] at hp hb ⊢
      exact absurd ⟨hp, hb⟩ hcond
  refine ⟨hstopped, ?_⟩
  unfold playLoadedSoundsStep
  rw [hlook]
  simp only [hnc, Bool.false_eq_true, if_false, if_true]
  rw [List.countP_append]
  have hzero : (stopSoundBuffer st.active sfx.handle e.ptr).countP
      (fun a => a.ptr == e.ptr && a.buf == sfx.handle && !a.finished) = 0 := by
    rw [List.countP_eq_zero]
    intro a ha
    simp only [Bool.and_eq_true, beq_iff_eq, Bool.not_eq_true', Bool.not_eq_true]
    intro hcontra
    rcases hcontra with ⟨⟨hp, hb⟩, hf⟩
    rw [hstopped a ha hp hb] at hf
    cases hf
  rw [hzero]
  simp

/-- Witness for `C3_single_active_per_entity_buffer`: entity 7 already has
a playing instance of buffer 3 in the table; committing the freshly loaded
duplicate leaves exactly one unstopped instance of (7, 3). -/
theorem C3_single_active_per_entity_buffer_witness :
    (∀ a ∈ stopSoundBuffer
        [ActiveEntry.mk 7 ⟨{}, .Playing⟩ 3 false] 3 7,
        a.ptr = 7 → a.buf = 3 → a.finished = true)
    ∧ (playLoadedSoundsStep
        ⟨[("x", some ⟨1, 1, 1000, 3⟩)], [ActiveEntry.mk 7 ⟨{}, .Playing⟩ 3 false],
          fun _ => 1, [], []⟩
        ⟨7, "x", 0, ⟨{ sfxVolume := 0 }, .Loading⟩, 0⟩ true).active.countP
        (fun a => a.ptr == 7 && a.buf == 3 && !a.finished) = 1 :=
  C3_single_active_per_entity_buffer
    ⟨[("x", some ⟨1, 1, 1000, 3⟩)], [ActiveEntry.mk 7 ⟨{}, .Playing⟩ 3 false],
      fun _ => 1, [], []⟩
    ⟨7, "x", 0, ⟨{ sfxVolume := 0 }, .Loading⟩, 0⟩ ⟨1, 1, 1000, 3⟩
    (by decide) (by decide)

/-- C6: `stopSound(Sound*)` asks the backend to finish the instance exactly
when it is `Playing`, and otherwise marks it `LoadCancelled`; and a
`LoadCancelled` ledger entry is discarded by the drain without any backend
play call, table insertion, or use-count change (the drain step leaves the
state untouched). -/
theorem C6_stop_and_discard :
    (∀ sb : SoundBase,
        ((stopSound sb).2 = true ↔ sb.state = .Playing)
        ∧ (sb.state ≠ .Playing → (stopSound sb).1.state = .LoadCancelled))
    ∧ (∀ (st : SoundDrainState) (e : LoadingSound) (played : Bool),
        e.sound.isLoadCancelled = true → playLoadedSoundsStep st e played = st) := by
  constructor
  · intro sb
    constructor
    · cases hsb : sb.state <;>
        simp [stopSound, SoundBase.isPlaying, SoundBase.cancelLoading, hsb]
    · intro hnp
      cases hsb : sb.state
      · simp [stopSound, SoundBase.isPlaying, SoundBase.cancelLoading, hsb]
      · exact absurd hsb hnp
      · simp [stopSound, SoundBase.isPlaying, SoundBase.cancelLoading, hsb]
  · intro st e played hcanc
    unfold playLoadedSoundsStep
    cases st.loadedBuffers.lookup e.soundId with
    | none => rfl
    | some sfxOpt => simp [hcanc]

/-- Witness for `C6_stop_and_discard`: stopping a `Loading` instance
cancels it, and draining a `LoadCancelled` ledger entry leaves the drain
state unchanged. -/
theorem C6_stop_and_discard_witness :
    (stopSound ⟨{}, .Loading⟩).1.state = .LoadCancelled
    ∧ playLoadedSoundsStep
        ⟨[("x", some ⟨1, 1, 1000, 3⟩)], [], fun _ => 0, [], []⟩
        ⟨0, "x", 0, ⟨{}, .LoadCancelled⟩, 0⟩ true
      = ⟨[("x", some ⟨1, 1, 1000, 3⟩)], [], fun _ => 0, [], []⟩ :=
  ⟨(C6_stop_and_discard.1 ⟨{}, .Loading⟩).2 (by decide),
    C6_stop_and_discard.2 ⟨[("x", some ⟨1, 1, 1000, 3⟩)], [], fun _ => 0, [], []⟩
      ⟨0, "x", 0, ⟨{}, .LoadCancelled⟩, 0⟩ true (by decide)⟩

/-! ### C7: deadline-waits performed by the frame-thread drains

Each drain begins with a wait phase.  For pending sounds
(part_003:1544-1547) and voices (part_003:1434-1437, after the
promotion of `mWaitingVoice` into `mActiveWaitingVoice` at 1428-1429) the
loop calls `waitTillDone` on *every* ledger entry whose deadline has
elapsed.  The music drain (part_003:1480-1484) checks only
`mWaitingMusic.back()`.  The functions below return the sub-list of ledger
entries that get a blocking `waitTillDone`. -/

/-- An entry of the voice ledgers (`struct Voice`), reduced to the fields
the wait phase reads. -/
structure Voice where
  ptr : Nat
  fileName : String
  deadline : Nat
  deriving DecidableEq, Repr

/-- An entry of `mWaitingMusic` (`struct Music`), reduced to the fields the
wait phase reads. -/
structure Music where
  fileName : String
  deadline : Nat
  deriving DecidableEq, Repr

/-- Wait phase of `playLoadedSounds` (part_003:1544-1547): every pending
sound whose deadline has elapsed is waited on. -/
def playLoadedSoundsWaits (ledger : List LoadingSound) (now : Nat) : List LoadingSound :=
  ledger.filter fun s => s.deadline ≤ now

/-- Wait phase of `playAllVoicesFromCreatedDecoders` (part_003:1426-1437):
`mWaitingVoice` is promoted to the back of `mActiveWaitingVoice`, then
every entry whose deadline has elapsed is waited on. -/
def playAllVoicesWaits (activeWaiting waiting : List Voice) (now : Nat) : List Voice :=
  (activeWaiting ++ waiting).filter fun v => v.deadline ≤ now

/-- Wait phase of `playMusicFromCreatedDecoder` (part_003:1480-1484): only
`mWaitingMusic.back()` is deadline-checked and waited on. -/
def playMusicWaits (waitingMusic : List Music) (now : Nat) : List Music :=
  match waitingMusic.getLast? with
  | none => []
  | some m => if m.deadline ≤ now then [m] else []

/-- C7 counterexample: with two queued music requests (reachable when a
queued successor finishes fading out while the previous request's decoder
is still pending, part_003:1136-1150), both over deadline at drain time,
the music drain waits only on the back entry; the older entry is pending
and over deadline but is never waited on, so not every over-deadline
request in every ledger is waited on. -/
theorem C7_music_wait_counterexample :
    (Music.mk "a" 0) ∈ [Music.mk "a" 0, Music.mk "b" 0]
    ∧ (Music.mk "a" 0).deadline ≤ 5
    ∧ (Music.mk "a" 0) ∉ playMusicWaits [Music.mk "a" 0, Music.mk "b" 0] 5 := by
  refine ⟨by decide, by decide, ?_⟩
  decide

/-- C7 (amended): the sound and voice drains block on every ledger entry
whose deadline has elapsed; the music drain blocks only on the most recent
(back) request when its deadline has elapsed — older superseded music
requests are not waited on (they are aborted and discarded when the newest
one commits, part_003:1505-1507). -/
theorem C7_deadline_waits (now : Nat) :
    (∀ (ledger : List LoadingSound) (e : LoadingSound),
        e ∈ ledger → e.deadline ≤ now → e ∈ playLoadedSoundsWaits ledger now)
    ∧ (∀ (activeWaiting waiting : List Voice) (v : Voice),
        v ∈ activeWaiting ++ waiting → v.deadline ≤ now →
          v ∈ playAllVoicesWaits activeWaiting waiting now)
    ∧ (∀ (ledger : List Music) (m : Music),
        ledger.getLast? = some m → m.deadline ≤ now → m ∈ playMusicWaits ledger now) := by
  refine ⟨?_, ?_, ?_⟩
  · intro ledger e he hd
    exact List.mem_filter.mpr ⟨he, by simpa using hd⟩
  · intro activeWaiting waiting v hv hd
    exact List.mem_filter.mpr ⟨hv, by simpa using hd⟩
  · intro ledger m hlast hd
    unfold playMusicWaits
    rw [hlast]
    simp only [if_pos hd]
    exact List.mem_singleton.mpr rfl

/-- Witness for `C7_deadline_waits`: an over-deadline pending sound, voice
and (back) music entry are each in their drain's wait list. -/
theorem C7_deadline_waits_witness :
    (LoadingSound.mk 0 "x" 0 ⟨{}, .Loading⟩ 3
      ∈ playLoadedSoundsWaits [⟨0, "x", 0, ⟨{}, .Loading⟩, 3⟩] 5)
    ∧ (Voice.mk 0 "v" 3 ∈ playAllVoicesWaits [⟨0, "v", 3⟩] [] 5)
    ∧ (Music.mk "m" 3 ∈ playMusicWaits [⟨"a", 0⟩, ⟨"m", 3⟩] 5) :=
  ⟨(C7_deadline_waits 5).1 [⟨0, "x", 0, ⟨{}, .Loading⟩, 3⟩] _ (by decide) (by decide),
    (C7_deadline_waits 5).2.1 [⟨0, "v", 3⟩] [] _ (by decide) (by decide),
    (C7_deadline_waits 5).2.2 [⟨"a", 0⟩, ⟨"m", 3⟩] _ (by decide) (by decide)⟩

/-! ### Request paths: `playSound`, `playSound3D`, `loadSoundAsync` -/

/-- Embeds `Misc::StringUtils::lowerCase`: per-character ASCII lowercasing of a
sound identifier. -/
def lowerChar (c : Char) : Char :=
  if 65 ≤ c.toNat ∧ c.toNat ≤ 90 then Char.ofNat (c.toNat + 32) else c

def lowerCase (s : String) : String := ⟨s.data.map lowerChar⟩

/-- The request-side manager state: the pending-sound ledger and the worker
queue (each queued work item represented by the sound id its closure
captures). -/
structure RequestState where
  loadingSounds : List LoadingSound
  workQueue : List String
  deriving DecidableEq, Repr

/-- Embeds `SoundManager::loadSoundAsync` (part_003:1510-1524): build the work
item capturing the sound id, push the ledger entry, and unconditionally add
the work item to the worker queue. -/
def loadSoundAsync (st : RequestState) (ptr : Nat) (soundId : String) (offset : ℚ)
    (sound : SoundBase) (deadline : Nat) : RequestState :=
  { loadingSounds := st.loadingSounds ++ [⟨ptr, soundId, offset, sound, deadline⟩]
    workQueue := st.workQueue ++ [soundId] }

/-- Embeds `SoundManager::playSound` (part_003:628-650): init a `Loading` instance
with caller volume as volume factor, **sfx volume 0**, the type-category
volume as base volume, 2D flags; then hand off to `loadSoundAsync` with the
lowercased id and an empty entity.  `volumeFromType` is passed in as
`baseVolume`. -/
def playSound (st : RequestState) (soundId : String) (volume pitch baseVolume : ℚ)
    (mode : PlayFlags) (offset : ℚ) (deadline : Nat) : SoundBase × RequestState :=
  let snd : SoundBase :=
    ⟨{ volumeFactor := volume, sfxVolume := 0, baseVolume := baseVolume, pitch := pitch
       flags := { mode with is3D := false } }, .Loading⟩
  (snd, loadSoundAsync st 0 (lowerCase soundId) offset snd deadline)

/-- Embeds `SoundManager::playSound3D(ConstPtr, ...)` (part_003:652-699): reject
immediately when `PlayMode::RemoveAtDistance` is set and the squared
distance from the listener to the entity exceeds `2000*2000`; otherwise
init through the player-local 2D branch or the 3D branch (sfx volume 0 in
both) and hand off to `loadSoundAsync`. -/
def playSound3D (st : RequestState) (ptr : Nat) (objpos listenerPos : Vec3)
    (isPlayer : Bool) (soundId : String) (volume pitch baseVolume : ℚ)
    (mode : PlayFlags) (offset : ℚ) (deadline : Nat) :
    Option SoundBase × RequestState :=
  if mode.removeAtDistance ∧ (listenerPos.sub objpos).length2 > 2000 * 2000 then
    (none, st)
  else
    let snd : SoundBase :=
      if ¬mode.noPlayerLocal ∧ isPlayer then
        ⟨{ volumeFactor := volume, sfxVolume := 0, baseVolume := baseVolume, pitch := pitch
           flags := { mode with is3D := false } }, .Loading⟩
      else
        ⟨{ pos := objpos, volumeFactor := volume, sfxVolume := 0, baseVolume := baseVolume
           pitch := pitch, minDistance := 0, maxDistance := 0
           flags := { mode with is3D := true } }, .Loading⟩
    (some snd, loadSoundAsync st ptr (lowerCase soundId) offset snd deadline)

/-- C8: a `playSound3D` request with the remove-at-distance flag set, for
an entity farther than the fixed 2000-unit cull radius from the listener,
is rejected immediately: the result is null and the request state (ledger
and worker queue) is unchanged. -/
theorem C8_distance_cull_rejects
    (st : RequestState) (ptr : Nat) (objpos listenerPos : Vec3) (isPlayer : Bool)
    (soundId : String) (volume pitch baseVolume : ℚ) (mode : PlayFlags)
    (offset : ℚ) (deadline : Nat)
    (hflag : mode.removeAtDistance = true)
    (hdist : (listenerPos.sub objpos).length2 > 2000 * 2000) :
    playSound3D st ptr objpos listenerPos isPlayer soundId volume pitch baseVolume
        mode offset deadline = (none, st) := by
  unfold playSound3D
  rw [if_pos ⟨by simp [hflag], hdist⟩]

/-- Witness for `C8_distance_cull_rejects`: the spec's scenario — listener
at the origin, entity at distance 3000 (squared distance 9000000 >
4000000), remove-at-distance set — is rejected with no state change. -/
theorem C8_distance_cull_rejects_witness :
    playSound3D ⟨[], []⟩ 1 ⟨3000, 0, 0⟩ ⟨0, 0, 0⟩ false "explosion" 1 1 1
        { removeAtDistance := true } 0 0 = (none, ⟨[], []⟩) :=
  C8_distance_cull_rejects ⟨[], []⟩ 1 ⟨3000, 0, 0⟩ ⟨0, 0, 0⟩ false "explosion" 1 1 1
    { removeAtDistance := true } 0 0 rfl (by norm_num [Vec3.sub, Vec3.length2])

/-! ### C2: duplicate load requests and the worker-side dedup -/

/-- C2 counterexample: two back-to-back `playSound` requests for the same
identifier, the first not yet drained, put **two** work items for that
identifier on the worker queue — `loadSoundAsync` submits unconditionally,
so a second play request for an in-flight identifier does submit a second
work item. -/
theorem C2_duplicate_submission_counterexample :
    ¬ ((playSound (playSound ⟨[], []⟩ "x" 1 1 1 {} 0 0).2 "x" 1 1 1 {} 0 0).2.workQueue.count
          "x" ≤ 1) := by
  decide

/-- Embeds `SoundManager::loadSound` (part_003:1526-1537), the body of the queued
work item: if `mLoadedSoundBuffers` already has an entry for the id (even a
null one), return without loading; otherwise run `loadSoundSync` (modelled
by the oracle `resolve`) and record the result.  The boolean reports
whether `loadSoundSync` was actually executed. -/
def loadSound (loaded : List (String × Option SoundBuffer))
    (resolve : String → Option SoundBuffer) (soundId : String) :
    List (String × Option SoundBuffer) × Bool :=
  if (loaded.lookup soundId).isSome then (loaded, false)
  else ((soundId, resolve soundId) :: loaded, true)

/-- Sequential execution of the queued `loadSound` work items (the worker
pool has size 1, part_003:127, so tasks run one after another).  Returns
the final loaded-buffer map and the ids for which `loadSoundSync` actually
ran. -/
def runLoadTasks (loaded : List (String × Option SoundBuffer))
    (resolve : String → Option SoundBuffer) :
    List String → List (String × Option SoundBuffer) × List String
  | [] => (loaded, [])
  | s :: rest =>
    let r := loadSound loaded resolve s
    let q := runLoadTasks r.1 resolve rest
    (q.1, (if r.2 then [s] else []) ++ q.2)

lemma runLoadTasks_loaded_count (resolve : String → Option SoundBuffer) (s : String) :
    ∀ (queue : List String) (loaded : List (String × Option SoundBuffer)),
      ((loaded.lookup s).isSome → (runLoadTasks loaded resolve queue).2.count s = 0)
      ∧ (runLoadTasks loaded resolve queue).2.count s ≤ 1 := by
  intro queue
  induction queue with
  | nil => intro loaded; simp [runLoadTasks]
  | cons q rest ih =>
    intro loaded
    by_cases hq : (loaded.lookup q).isSome
    · have hrun : runLoadTasks loaded resolve (q :: rest)
          = ((runLoadTasks loaded resolve rest).1, (runLoadTasks loaded resolve rest).2) := by
        simp [runLoadTasks, loadSound, hq]
      rw [hrun]
      exact ih loaded
    · have hrun : runLoadTasks loaded resolve (q :: rest)
          = ((runLoadTasks ((q, resolve q) :: loaded) resolve rest).1,
              q :: (runLoadTasks ((q, resolve q) :: loaded) resolve rest).2) := by
        simp [runLoadTasks, loadSound, hq]
      rw [hrun]
      by_cases hsq : s = q
      · subst hsq
        have hz : ((runLoadTasks ((s, resolve s) :: loaded) resolve rest).2).count s = 0 :=
          (ih ((s, resolve s) :: loaded)).1 (by simp)
        constructor
        · intro hcontra
          exact absurd hcontra hq
        · simp [List.count_cons, hz]
      · have hbeq : (s == q) = false := beq_eq_false_iff_ne.mpr hsq
        have hlk : (((q, resolve q) :: loaded).lookup s).isSome = (loaded.lookup s).isSome := by
          simp [List.lookup, hbeq]
        have hqbeq : (q == s) = false := beq_eq_false_iff_ne.mpr fun h => hsq h.symm
        constructor
        · intro hs
          rw [List.count_cons]
          simp only [hqbeq, Bool.false_eq_true, if_false, Nat.add_zero]
          exact (ih ((q, resolve q) :: loaded)).1 (by rw [hlk]; exact hs)
        · rw [List.count_cons]
          simp only [hqbeq, Bool.false_eq_true, if_false, Nat.add_zero]
          exact (ih ((q, resolve q) :: loaded)).2

/-- C2 (amended): a play request for an identifier whose load is already in
flight *does* submit a second work item
(`C2_duplicate_submission_counterexample`), but the work item body is
idempotent: once any task has recorded a result for the identifier in the
loaded-buffer map, every later task for it returns without loading, so over
any sequence of queued work items executed by the single worker thread,
`loadSoundSync` runs at most once per distinct identifier (and never if the
map already holds the identifier). -/
theorem C2_load_once_per_path (loaded : List (String × Option SoundBuffer))
    (resolve : String → Option SoundBuffer) (queue : List String) (s : String) :
    ((loaded.lookup s).isSome → (runLoadTasks loaded resolve queue).2.count s = 0)
    ∧ (runLoadTasks loaded resolve queue).2.count s ≤ 1 :=
  runLoadTasks_loaded_count resolve s queue loaded

/-- Witness for `C2_load_once_per_path`: executing the duplicate queue
`["x", "x"]` on an empty map performs exactly one load of `"x"`, and with
`"x"` pre-recorded performs none. -/
theorem C2_load_once_per_path_witness :
    (runLoadTasks [] (fun _ => none) ["x", "x"]).2.count "x" ≤ 1
    ∧ (runLoadTasks [("x", none)] (fun _ => none) ["x", "x"]).2.count "x" = 0 :=
  ⟨(C2_load_once_per_path [] (fun _ => none) ["x", "x"] "x").2,
    (C2_load_once_per_path [("x", none)] (fun _ => none) ["x", "x"] "x").1 (by decide)⟩

/-! ### C10: real volume of a handle between request and commit -/

/-- The mutations a caller can apply to a handle returned by
`playSound`/`playSound3D` before the drain commits it (the public setters
of sound.hpp:49-64 the game code uses on live handles; `setSfxVolume` is
invoked only by the manager itself, at commit, part_003:1571, and on the
already-committed near-water sound, part_003:928-929). -/
inductive CallerOp where
  | setVolumeFactor (v : ℚ)
  | setBaseVolume (v : ℚ)
  | setFadeout (d : ℚ)
  | updateFade (dt : ℚ)
  | setPosition (p : Vec3)
  | setMinDistance (v : ℚ)
  | setMaxDistance (v : ℚ)

/-- Apply a sequence of caller mutations to a handle. -/
def applyCallerOps (sb : SoundBase) : List CallerOp → SoundBase
  | [] => sb
  | op :: rest =>
    let sb' :=
      match op with
      | .setVolumeFactor v => sb.setVolumeFactor v
      | .setBaseVolume v => sb.setBaseVolume v
      | .setFadeout d => sb.setFadeout d
      | .updateFade dt => sb.updateFade dt
      | .setPosition p => sb.setPosition p
      | .setMinDistance v => sb.setMinDistance v
      | .setMaxDistance v => sb.setMaxDistance v
    applyCallerOps sb' rest

lemma applyCallerOps_sfxVolume (ops : List CallerOp) :
    ∀ sb : SoundBase, (applyCallerOps sb ops).params.sfxVolume = sb.params.sfxVolume := by
  induction ops with
  | nil => intro sb; rfl
  | cons op rest ih =>
    intro sb
    cases op <;>
      simp only [applyCallerOps, ih, SoundBase.setVolumeFactor, SoundBase.setBaseVolume,
        SoundBase.setFadeout, SoundBase.setPosition, SoundBase.setMinDistance,
        SoundBase.setMaxDistance, SoundBase.updateFade]
    split <;> rfl

/-- C10: every handle returned by `playSound` or `playSound3D` has
`getRealVolume() = 0` from the request until the drain commits it — the
request paths initialise the per-source sfx volume to 0 (part_003:638, 670,
683) and no caller-side mutation touches it, so the product
`volumeFactor * sfxVolume * baseVolume` stays 0; it becomes the buffer's
volume only when `playLoadedSounds` commits the instance (part_003:1571):
the committed table entry carries sfx volume `sfx->mVolume`. -/
theorem C10_zero_volume_until_commit :
    (∀ (st : RequestState) (soundId : String) (volume pitch baseVolume : ℚ)
        (mode : PlayFlags) (offset : ℚ) (deadline : Nat) (ops : List CallerOp),
        (applyCallerOps
          (playSound st soundId volume pitch baseVolume mode offset deadline).1
          ops).getRealVolume = 0)
    ∧ (∀ (st : RequestState) (ptr : Nat) (objpos listenerPos : Vec3) (isPlayer : Bool)
        (soundId : String) (volume pitch baseVolume : ℚ) (mode : PlayFlags)
        (offset : ℚ) (deadline : Nat) (snd : SoundBase) (ops : List CallerOp),
        (playSound3D st ptr objpos listenerPos isPlayer soundId volume pitch baseVolume
            mode offset deadline).1 = some snd →
        (applyCallerOps snd ops).getRealVolume = 0)
    ∧ (∀ (st : SoundDrainState) (e : LoadingSound) (sfx : SoundBuffer),
        st.loadedBuffers.lookup e.soundId = some (some sfx) →
        e.sound.isLoadCancelled = false →
        ((playLoadedSoundsStep st e true).active.getLast?.map
            fun a => a.sound.params.sfxVolume) = some sfx.volume) := by
  refine ⟨?_, ?_, ?_⟩
  · intro st soundId volume pitch baseVolume mode offset deadline ops
    rw [SoundBase.getRealVolume, applyCallerOps_sfxVolume]
    simp [playSound]
  · intro st ptr objpos listenerPos isPlayer soundId volume pitch baseVolume mode offset
      deadline snd ops h
    unfold playSound3D at h
    split at h
    · exact absurd h (by simp)
    · split at h <;>
      · rw [Option.some_inj] at h
        rw [SoundBase.getRealVolume, applyCallerOps_sfxVolume, ← h]
        simp
  · intro st e sfx hlook hnc
    unfold playLoadedSoundsStep
    rw [hlook]
    simp only [hnc, Bool.false_eq_true, if_false, if_true]
    rw [List.getLast?_concat]
    split <;>
      simp [SoundBase.setPlaying, SoundBase.setMaxDistance, SoundBase.setMinDistance,
        SoundBase.setSfxVolume]

/-- Witness for `C10_zero_volume_until_commit`: a player-local
`playSound3D` handle, further mutated by a caller `setVolumeFactor 5`,
still reports real volume 0; and committing a loaded sound stores the
buffer volume 5 as the instance's sfx volume. -/
theorem C10_zero_volume_until_commit_witness :
    (applyCallerOps (SoundBase.mk { sfxVolume := 0 } .Loading)
        [CallerOp.setVolumeFactor 5]).getRealVolume = 0
    ∧ ((playLoadedSoundsStep
          ⟨[("x", some ⟨5, 1, 1000, 3⟩)], [], fun _ => 0, [], []⟩
          ⟨7, "x", 0, ⟨{ sfxVolume := 0 }, .Loading⟩, 0⟩ true).active.getLast?.map
        fun a => a.sound.params.sfxVolume) = some 5 :=
  ⟨C10_zero_volume_until_commit.2.1 ⟨[], []⟩ 1 ⟨0, 0, 0⟩ ⟨0, 0, 0⟩ true "x" 1 1 1 {} 0 0
      (SoundBase.mk { sfxVolume := 0 } .Loading) [CallerOp.setVolumeFactor 5] (by decide),
    C10_zero_volume_until_commit.2.2
      ⟨[("x", some ⟨5, 1, 1000, 3⟩)], [], fun _ => 0, [], []⟩
      ⟨7, "x", 0, ⟨{ sfxVolume := 0 }, .Loading⟩, 0⟩ ⟨5, 1, 1000, 3⟩
      (by decide) (by decide)⟩

/-! ### C9: `startRandomTitle` (part_003:387-411)

```
if(tracklist.empty()) { tracklist.resize(filelist.size()); iota(...); }
int i = Misc::Rng::rollDice(tracklist.size());
if(filelist[tracklist[i]] == mLastPlayedMusic) i = (i+1) % tracklist.size();
advanceMusic(filelist[tracklist[i]]);
tracklist[i] = tracklist.back(); tracklist.pop_back();
```
`Misc::Rng::rollDice(n)` yields a uniform integer in `[0, n)`; it is
modelled by an arbitrary natural `roll` reduced modulo the pool size. -/

/-- The swap-remove `tracklist[i] = tracklist.back(); tracklist.pop_back()`. -/
def removeAt (tl : List Nat) (i : Nat) : List Nat :=
  (tl.set i (tl.getLastD 0)).dropLast

lemma getLastD_of_ne_nil (l : List Nat) (h : l ≠ []) (d d' : Nat) :
    l.getLastD d = l.getLastD d' := by
  rw [List.getLastD_eq_getLast?, List.getLastD_eq_getLast?, List.getLast?_eq_getLast l h]
  rfl

lemma removeAt_perm : ∀ (tl : List Nat) (i : Nat), i < tl.length →
    List.Perm (removeAt tl i) (tl.eraseIdx i) := by
  intro tl
  induction tl with
  | nil => intro i h; simp at h
  | cons a tl' ih =>
    intro i hi
    cases i with
    | zero =>
      cases tl' with
      | nil => simp [removeAt]
      | cons b tl'' =>
        have hne : (b :: tl'') ≠ [] := by simp
        have hg : (a :: b :: tl'').getLastD 0 = (b :: tl'').getLast hne := by
          rw [List.getLastD_cons]
          rw [List.getLastD_eq_getLast?, List.getLast?_eq_getLast _ hne]
          rfl
        show List.Perm (((a :: b :: tl'').set 0 ((a :: b :: tl'').getLastD 0)).dropLast) _
        rw [hg]
        show List.Perm (((b :: tl'').getLast hne :: b :: tl'').dropLast)
          ((a :: b :: tl'').eraseIdx 0)
        rw [List.dropLast_cons₂]
        have hdecomp : (b :: tl'').dropLast ++ [(b :: tl'').getLast hne] = b :: tl'' :=
          List.dropLast_append_getLast hne
        have hmid : List.Perm ((b :: tl'').getLast hne :: (b :: tl'').dropLast)
            ((b :: tl'').dropLast ++ [(b :: tl'').getLast hne]) :=
          (List.perm_middle.trans (by simp)).symm
        refine hmid.trans ?_
        rw [hdecomp]
        exact List.Perm.refl _
    | succ j =>
      have hj : j < tl'.length := by simpa using hi
      have hne : tl' ≠ [] := by
        intro hcontra
        rw [hcontra] at hj
        simp at hj
      have hsetne : tl'.set j ((a :: tl').getLastD 0) ≠ [] := by
        have hlen : (tl'.set j ((a :: tl').getLastD 0)).length = tl'.length := by simp
        intro hcontra
        rw [hcontra] at hlen
        simp only [List.length_nil] at hlen
        omega
      show List.Perm (((a :: tl').set (j+1) ((a :: tl').getLastD 0)).dropLast)
        ((a :: tl').eraseIdx (j+1))
      rw [List.set_cons_succ]
      rw [List.dropLast_cons_of_ne_nil hsetne]
      have hg : (a :: tl').getLastD 0 = tl'.getLastD 0 := by
        rw [List.getLastD_cons]
        exact getLastD_of_ne_nil tl' hne a 0
      rw [hg]
      have hperm := ih j hj
      rw [removeAt] at hperm
      exact List.Perm.cons a hperm

lemma getD_cons_eraseIdx_perm (l : List Nat) (i : Nat) (h : i < l.length) :
    List.Perm (l.getD i 0 :: l.eraseIdx i) l := by
  rw [List.eraseIdx_eq_take_drop_succ]
  have hdecomp : l.take i ++ l[i] :: l.drop (i+1) = l := by
    conv_rhs => rw [← List.take_append_drop i l]
    rw [List.drop_eq_getElem_cons h]
  rw [List.getD_eq_getElem l 0 h]
  have hmid : List.Perm (l[i] :: (l.take i ++ l.drop (i+1)))
      (l.take i ++ l[i] :: l.drop (i+1)) := List.perm_middle.symm
  refine hmid.trans ?_
  rw [hdecomp]

/-- One `startRandomTitle` draw (part_003:387-411), returning the chosen
filelist index (the track handed to `advanceMusic`) and the surviving pool:
repopulate the pool with `0..n-1` exactly when it is empty, roll a pool
position, advance once to the cyclically next position if the rolled track
equals the last played one, then swap-remove the chosen position. -/
def startRandomTitleDraw (filelist : List String) (lastPlayed : String)
    (tracklist0 : List Nat) (roll : Nat) : Nat × List Nat :=
  let tracklist := if tracklist0.isEmpty then List.range filelist.length else tracklist0
  let i0 := roll % tracklist.length
  let i :=
    if filelist.getD (tracklist.getD i0 0) "" = lastPlayed then
      (i0 + 1) % tracklist.length
    else i0
  (tracklist.getD i 0, removeAt tracklist i)

/-- Consecutive `startRandomTitle` draws, one per random roll, threading
the pool and the last-played track. -/
def startRandomTitleSeq (filelist : List String) (lastPlayed : String)
    (tracklist : List Nat) : List Nat → List Nat × List Nat
  | [] => ([], tracklist)
  | r :: rs =>
    let d := startRandomTitleDraw filelist lastPlayed tracklist r
    let q := startRandomTitleSeq filelist (filelist.getD d.1 "") d.2 rs
    (d.1 :: q.1, q.2)

lemma draw_cons_perm (filelist : List String) (lastPlayed : String)
    (tl : List Nat) (roll : Nat) (hne : tl ≠ []) :
    List.Perm
      ((startRandomTitleDraw filelist lastPlayed tl roll).1 ::
        (startRandomTitleDraw filelist lastPlayed tl roll).2) tl := by
  have hlen : 0 < tl.length := List.length_pos.mpr hne
  have hie : tl.isEmpty = false := by
    cases tl
    · simp at hne
    · rfl
  unfold startRandomTitleDraw
  simp only [hie, Bool.false_eq_true, if_false]
  set i0 := roll % tl.length with hi0
  set i := if filelist.getD (tl.getD i0 0) "" = lastPlayed then (i0 + 1) % tl.length else i0
    with hidef
  have hilt : i < tl.length := by
    rw [hidef]
    split
    · exact Nat.mod_lt _ hlen
    · exact Nat.mod_lt _ hlen
  exact (List.Perm.cons _ (removeAt_perm tl i hilt)).trans
    (getD_cons_eraseIdx_perm tl i hilt)

lemma seq_perm (filelist : List String) :
    ∀ (rolls : List Nat) (lastPlayed : String) (tl : List Nat),
      rolls.length ≤ tl.length →
      List.Perm
        ((startRandomTitleSeq filelist lastPlayed tl rolls).1 ++
          (startRandomTitleSeq filelist lastPlayed tl rolls).2) tl
      ∧ (startRandomTitleSeq filelist lastPlayed tl rolls).2.length
          = tl.length - rolls.length := by
  intro rolls
  induction rolls with
  | nil => intro lastPlayed tl _; simp [startRandomTitleSeq]
  | cons r rs ih =>
    intro lastPlayed tl hlen
    have hne : tl ≠ [] := by
      intro hcontra
      rw [hcontra] at hlen
      simp at hlen
    have hdp := draw_cons_perm filelist lastPlayed tl r hne
    have hdlen : (startRandomTitleDraw filelist lastPlayed tl r).2.length + 1 = tl.length := by
      have := hdp.length_eq
      simpa using this
    have hrs : rs.length ≤ (startRandomTitleDraw filelist lastPlayed tl r).2.length := by
      have : rs.length + 1 ≤ tl.length := by simpa using hlen
      omega
    have hq := ih (filelist.getD (startRandomTitleDraw filelist lastPlayed tl r).1 "")
      (startRandomTitleDraw filelist lastPlayed tl r).2 hrs
    constructor
    · show List.Perm
        (((startRandomTitleDraw filelist lastPlayed tl r).1 :: _) ++ _) tl
      rw [List.cons_append]
      exact (List.Perm.cons _ hq.1).trans hdp
    · show (startRandomTitleSeq filelist
        (filelist.getD (startRandomTitleDraw filelist lastPlayed tl r).1 "")
        (startRandomTitleDraw filelist lastPlayed tl r).2 rs).2.length = _
      rw [hq.2]
      simp only [List.length_cons]
      omega

/-- Modelled from the spec: the claim's "re-drawn once" collision policy —
when the rolled track equals the immediately-previously-played one, the
selection is determined by a *second* random draw (`reroll`) over the pool,
instead of the code's deterministic advance to the next position. -/
def startRandomTitleRedraw (filelist : List String) (lastPlayed : String)
    (tracklist0 : List Nat) (roll reroll : Nat) : Nat × List Nat :=
  let tracklist := if tracklist0.isEmpty then List.range filelist.length else tracklist0
  let i0 := roll % tracklist.length
  let i :=
    if filelist.getD (tracklist.getD i0 0) "" = lastPlayed then
      reroll % tracklist.length
    else i0
  (tracklist.getD i 0, removeAt tracklist i)

/-- C9 counterexample: with playlist `["a","b","c"]`, pool `[0,1,2]`, last
played `"a"`, and a roll hitting position 0 (track `"a"`, a collision), the
code deterministically selects position 1 (track `"b"`), regardless of any
further random value; a genuine once-re-drawn selection with second roll 2
would select track `"c"`.  The collision adjustment is therefore not a
re-draw. -/
theorem C9_redraw_counterexample :
    (["a", "b", "c"].getD ([0, 1, 2].getD (0 % 3) 0) "" = "a")
    ∧ (startRandomTitleDraw ["a", "b", "c"] "a" [0, 1, 2] 0).1 = 1
    ∧ (startRandomTitleRedraw ["a", "b", "c"] "a" [0, 1, 2] 0 2).1 = 2
    ∧ (startRandomTitleDraw ["a", "b", "c"] "a" [0, 1, 2] 0).1
        ≠ (startRandomTitleRedraw ["a", "b", "c"] "a" [0, 1, 2] 0 2).1 := by
  refine ⟨?_, ?_, ?_, ?_⟩ <;> decide

/-- C9 (amended): `startRandomTitle` draws without replacement — the pool
is repopulated with all track indices exactly when it is empty (drawing
from an empty pool equals drawing from the freshly repopulated full pool,
and a non-empty pool is used as is); each draw removes the chosen index
from the pool (chosen index consed onto the surviving pool is a
permutation of the old pool); over `n` consecutive draws from a full
`n`-track pool every track index is returned exactly once (the drawn
sequence is a permutation of `0..n-1`); and when the rolled track equals
the immediately-previously-played one, the selection advances
deterministically to the cyclically next pool position `(i+1) % size`
(not a random re-draw). -/
theorem C9_draw_without_replacement :
    (∀ (filelist : List String) (lastPlayed : String) (roll : Nat),
        startRandomTitleDraw filelist lastPlayed [] roll
          = startRandomTitleDraw filelist lastPlayed (List.range filelist.length) roll)
    ∧ (∀ (filelist : List String) (lastPlayed : String) (tl : List Nat) (roll : Nat),
        tl ≠ [] →
        List.Perm
          ((startRandomTitleDraw filelist lastPlayed tl roll).1 ::
            (startRandomTitleDraw filelist lastPlayed tl roll).2) tl)
    ∧ (∀ (filelist : List String) (lastPlayed : String) (rolls : List Nat),
        rolls.length = filelist.length →
        List.Perm
          (startRandomTitleSeq filelist lastPlayed (List.range filelist.length) rolls).1
          (List.range filelist.length))
    ∧ (∀ (filelist : List String) (lastPlayed : String) (tl : List Nat) (roll : Nat),
        tl ≠ [] →
        filelist.getD (tl.getD (roll % tl.length) 0) "" = lastPlayed →
        (startRandomTitleDraw filelist lastPlayed tl roll).1
          = tl.getD ((roll % tl.length + 1) % tl.length) 0) := by
  refine ⟨?_, ?_, ?_, ?_⟩
  · intro filelist lastPlayed roll
    unfold startRandomTitleDraw
    have : (if ([] : List Nat).isEmpty then List.range filelist.length else [])
        = (if (List.range filelist.length).isEmpty then List.range filelist.length
            else List.range filelist.length) := by
      simp
    simp only [this]
  · exact fun fl lp tl roll hne => draw_cons_perm fl lp tl roll hne
  · intro filelist lastPlayed rolls hlen
    have h := seq_perm filelist rolls lastPlayed (List.range filelist.length)
      (by simp [hlen])
    have hnil : (startRandomTitleSeq filelist lastPlayed (List.range filelist.length)
        rolls).2 = [] := by
      have := h.2
      rw [List.length_range, hlen] at this
      simp only [Nat.sub_self] at this
      exact List.length_eq_zero.mp this
    have := h.1
    rw [hnil, List.append_nil] at this
    exact this
  · intro filelist lastPlayed tl roll hne hcoll
    have hie : tl.isEmpty = false := by
      cases tl
      · simp at hne
      · rfl
    unfold startRandomTitleDraw
    simp only [hie, Bool.false_eq_true, if_false, hcoll, if_pos, if_true]

/-- Witness for `C9_draw_without_replacement`: three draws over the
3-track playlist return each track index exactly once, and a colliding
draw selects the cyclically next pool position. -/
theorem C9_draw_without_replacement_witness :
    List.Perm
      (startRandomTitleSeq ["a", "b", "c"] "c" (List.range 3) [0, 0, 0]).1
      (List.range 3)
    ∧ (startRandomTitleDraw ["a", "b", "c"] "a" [0, 1, 2] 0).1
        = [0, 1, 2].getD ((0 % 3 + 1) % 3) 0 :=
  ⟨C9_draw_without_replacement.2.2.1 ["a", "b", "c"] "c" [0, 0, 0] (by decide),
    C9_draw_without_replacement.2.2.2 ["a", "b", "c"] "a" [0, 1, 2] 0
      (by decide) (by decide)⟩

end MWSound
